import Mathlib

/-!
Shallow embedding of `src/buddy.c`, a page-granularity buddy memory allocator.

Modelling conventions:
* Pointers are natural numbers (absolute addresses); the C null pointer is `0`.
* The C `int` and `size_t` arithmetic is modelled with `Nat` / `Int`; all the
  concrete inputs used below stay far below any machine-integer overflow
  (`total_pages * PAGE_SIZE` first overflows a 32-bit `int` at
  `pgcount = 2 ^ 19`, and every input used here is smaller).
* The global mutable state (`memory_base`, `total_pages`, `max_rank`,
  `free_lists`) becomes an explicit `BuddyState` record threaded through the
  operations; each C function of the source becomes a Lean function returning
  its result together with the successor state.
* Each per-rank free list in C is a singly linked list threaded through block
  headers; it is modelled as a `List Nat` of the block header addresses, head
  first, exactly in C list order.  The `rank` field of `struct block_header`
  is written by the C source but never read by any code path, so the embedding
  does not carry it.
* The C `while` loops are modelled by structural recursion on an explicit
  fuel argument.  At every call site the fuel passed is the exact iteration
  bound of the corresponding C loop (derived from its counter and guard), so
  the fuel never runs out before the C guard turns false and the functions
  compute exactly what the C loops compute.
-/

/-- Error results of the C source: `-EINVAL` (invalid argument / address) and
`-ENOSPC` (out of space), as returned directly or through `ERR_PTR`. -/
inductive BuddyErr where
  | EINVAL
  | ENOSPC
deriving DecidableEq

/-- The C macro `PAGE_SIZE`: `#define PAGE_SIZE (4 * 1024)`. -/
def PAGE_SIZE : Nat := 4096

/-- The C macro `MAX_RANK`: `#define MAX_RANK 16`. -/
def MAX_RANK : Nat := 16

/-- The value of `sizeof(struct block_header)` on an LP64 target: `int rank` (4 bytes,
padded to 8 for pointer alignment) plus `struct block_header *next` (8 bytes). -/
def HEADER_SIZE : Nat := 16

/-- The global mutable state of `buddy.c`: `memory_base`, `total_pages`,
`max_rank` and the per-rank free lists `free_lists[MAX_RANK + 1]`
(index 0 is present but unused, exactly as in the C array). -/
structure BuddyState where
  memory_base : Nat
  total_pages : Nat
  max_rank : Nat
  free_lists : List (List Nat)
deriving DecidableEq

/-- The state before `init_page`: all statics zero-initialized. -/
def initialState : BuddyState :=
  { memory_base := 0, total_pages := 0, max_rank := 0,
    free_lists := List.replicate (MAX_RANK + 1) [] }

/-- Read `free_lists[r]`. -/
def getList (fl : List (List Nat)) (r : Nat) : List Nat :=
  fl.getD r []

/-- Write `free_lists[r]`. -/
def setList (fl : List (List Nat)) (r : Nat) (l : List Nat) : List (List Nat) :=
  fl.set r l

/-- C function `rank_to_size`: `PAGE_SIZE * (1 << (rank - 1))`. -/
def rank_to_size (rank : Nat) : Nat :=
  PAGE_SIZE * 2 ^ (rank - 1)

/-- C function `is_valid_address`: the address is non-null-based, inside
`[memory_base, memory_base + total_pages * PAGE_SIZE)`. -/
def is_valid_address (s : BuddyState) (addr : Nat) : Bool :=
  if s.memory_base = 0 then false
  else if addr < s.memory_base then false
  else if s.memory_base + s.total_pages * PAGE_SIZE ≤ addr then false
  else true

/-- C function `get_offset`: `(char *)addr - (char *)memory_base`. -/
def get_offset (s : BuddyState) (addr : Nat) : Nat :=
  addr - s.memory_base

/-- C function `get_buddy`: `memory_base + (offset ^ rank_to_size(rank))`. -/
def get_buddy (s : BuddyState) (addr : Nat) (rank : Nat) : Nat :=
  s.memory_base + Nat.xor (get_offset s addr) (rank_to_size rank)

/-- The `max_rank` computation loop of `init_page`:
`while (current_size <= total && max_rank < MAX_RANK) { max_rank++; current_size *= 2; }`.
The fuel equals `MAX_RANK - max_rank`, so fuel `0` is exactly the guard
`max_rank < MAX_RANK` turning false. -/
def maxRankLoop (totalBytes : Nat) : Nat → Nat → Nat → Nat
  | mr, _, 0 => mr
  | mr, cur, fuel + 1 =>
    if cur ≤ totalBytes then maxRankLoop totalBytes (mr + 1) (cur * 2) fuel else mr

/-- C function `init_page(p, pgcount)`: reject a null base or non-positive page count,
zero the free lists, compute `max_rank`, and seed a single free block at the
base address with rank `max_rank`. -/
def init_page (p : Nat) (pgcount : Int) (s : BuddyState) :
    Except BuddyErr Unit × BuddyState :=
  if p = 0 ∨ pgcount ≤ 0 then (.error .EINVAL, s)
  else
    let tp : Nat := pgcount.toNat
    let mr : Nat := maxRankLoop (tp * PAGE_SIZE) 1 PAGE_SIZE (MAX_RANK - 1) - 1
    let fl : List (List Nat) := setList (List.replicate (MAX_RANK + 1) []) mr [p]
    (.ok (), { memory_base := p, total_pages := tp, max_rank := mr, free_lists := fl })

/-- The ascending scan of `alloc_pages`:
`while (current_rank <= max_rank && free_lists[current_rank] == NULL) current_rank++;`.
The fuel equals `max_rank + 1 - current_rank`, so fuel `0` is exactly the
guard `current_rank <= max_rank` turning false. -/
def findRankLoop (fl : List (List Nat)) : Nat → Nat → Nat
  | cr, 0 => cr
  | cr, fuel + 1 =>
    if getList fl cr = [] then findRankLoop fl (cr + 1) fuel else cr

/-- The splitting loop of `alloc_pages`: pop the head block of
`free_lists[current_rank]`, push it and its upper half onto
`free_lists[current_rank - 1]` (first the lower then the upper half, so the
upper half ends up at the head), and continue at `current_rank - 1`.
The fuel equals `current_rank - rank`, so fuel `0` is exactly the guard
`current_rank > rank` turning false.  The `[]` branch is unreachable from
`alloc_pages` (the scan only selects a non-empty list and every iteration
pushes two blocks onto the next list); in C it would dereference a null
pointer. -/
def splitLoop (rank : Nat) : Nat → List (List Nat) → Nat → List (List Nat)
  | _, fl, 0 => fl
  | cr, fl, fuel + 1 =>
    match getList fl cr with
    | [] => fl
    | block :: rest =>
      let nr := cr - 1
      let bs := rank_to_size nr
      let fl1 := setList fl cr rest
      let fl2 := setList fl1 nr (block :: getList fl1 nr)
      let fl3 := setList fl2 nr ((block + bs) :: getList fl2 nr)
      splitLoop rank nr fl3 fuel

/-- C function `alloc_pages(rank)`: validate the rank, require an initialized arena and
`rank <= max_rank`, scan ascending for the first non-empty free list, split
down to the requested rank, pop the head block and return the address just
past its header: `(char *)alloc_block + sizeof(struct block_header)`. -/
def alloc_pages (rank : Int) (s : BuddyState) : Except BuddyErr Nat × BuddyState :=
  if rank < 1 ∨ rank > (MAX_RANK : Int) then (.error .EINVAL, s)
  else if s.memory_base = 0 then (.error .ENOSPC, s)
  else
    let rk : Nat := rank.toNat
    if rk > s.max_rank then (.error .ENOSPC, s)
    else
      let cr : Nat := findRankLoop s.free_lists rk (s.max_rank + 1 - rk)
      if cr > s.max_rank then (.error .ENOSPC, s)
      else
        let fl : List (List Nat) := splitLoop rk cr s.free_lists (cr - rk)
        match getList fl rk with
        | [] => (.error .ENOSPC, s)
        | block :: rest =>
          (.ok (block + HEADER_SIZE),
           { s with free_lists := setList fl rk rest })

/-- Remove the first occurrence of address `a` from a free list, returning the
new list and whether it was found — the C buddy scan with its `prev` pointer
unlink. -/
def removeAddr : List Nat → Nat → List Nat × Bool
  | [], _ => ([], false)
  | x :: xs, a =>
    if x = a then (xs, true)
    else
      let r := removeAddr xs a
      (x :: r.1, r.2)

/-- The coalescing loop of `return_pages`: while `rank < max_rank`, look for
the buddy address in `free_lists[rank]`; if absent stop, else unlink the
buddy, unlink the current block, and push the lower of the two onto
`free_lists[rank + 1]`.  The fuel equals `max_rank - rank`, so fuel `0` is
exactly the guard `rank < max_rank` turning false. -/
def mergeLoop (base : Nat) : Nat → Nat → List (List Nat) → Nat → List (List Nat)
  | _, _, fl, 0 => fl
  | rank, block, fl, fuel + 1 =>
    let buddy := base + Nat.xor (block - base) (rank_to_size rank)
    let sr := removeAddr (getList fl rank) buddy
    if sr.2 then
      let fl1 := setList fl rank sr.1
      let br := removeAddr (getList fl1 rank) block
      let fl2 := setList fl1 rank br.1
      let nblock := if buddy < block then buddy else block
      let fl3 := setList fl2 (rank + 1) (nblock :: getList fl2 (rank + 1))
      mergeLoop base (rank + 1) nblock fl3 fuel
    else fl

/-- C function `return_pages(p)`: validate `p` and the header address `p - sizeof(struct
block_header)` against the arena bounds (nothing else — the C comment claims
to check that the block was allocated, but the code only range-checks), then
push the header address onto the rank-1 free list and run the coalescing
loop starting at the hard-coded `rank = 1`. -/
def return_pages (p : Nat) (s : BuddyState) : Except BuddyErr Unit × BuddyState :=
  if p = 0 ∨ is_valid_address s p = false then (.error .EINVAL, s)
  else if s.memory_base = 0 then (.error .EINVAL, s)
  else
    let block := p - HEADER_SIZE
    if is_valid_address s block = false then (.error .EINVAL, s)
    else
      let fl0 := setList s.free_lists 1 (block :: getList s.free_lists 1)
      let fl1 := mergeLoop s.memory_base 1 block fl0 (s.max_rank - 1)
      (.ok (), { s with free_lists := fl1 })

/-- The inner scan of `query_ranks` over one free list: does `p` fall inside
some block's data area `[header + sizeof(header), header + sizeof(header) +
rank_to_size(rank))`?  Returns at the first hit, as the C loop does. -/
def coverHit (p : Nat) (rank : Nat) : List Nat → Bool
  | [] => false
  | a :: rest =>
    if a + HEADER_SIZE ≤ p ∧ p < a + HEADER_SIZE + rank_to_size rank then true
    else coverHit p rank rest

/-- The outer scan of `query_ranks` over the ranks `1 .. max_rank`; falls
through to `return 1` when no free block's data area contains `p`.  The fuel
equals `max_rank + 1 - rank`, so fuel `0` is exactly the guard
`rank <= max_rank` turning false. -/
def queryRanksLoop (p : Nat) (fl : List (List Nat)) : Nat → Nat → Nat
  | _, 0 => 1
  | rank, fuel + 1 =>
    if coverHit p rank (getList fl rank) then rank
    else queryRanksLoop p fl (rank + 1) fuel

/-- C function `query_ranks(p)`: reject a null or out-of-arena pointer with `-EINVAL`,
else scan the free lists in ascending rank order and return the rank of the
first free block whose data area contains `p`, falling back to `1`. -/
def query_ranks (p : Nat) (s : BuddyState) : Except BuddyErr Nat :=
  if p = 0 ∨ is_valid_address s p = false then .error .EINVAL
  else if s.memory_base = 0 then .error .EINVAL
  else .ok (queryRanksLoop p s.free_lists 1 s.max_rank)

/-- The counting loop of `query_page_counts`. -/
def countLoop : List Nat → Nat → Nat
  | [], c => c
  | _ :: rest, c => countLoop rest (c + 1)

/-- C function `query_page_counts(rank)`: `-EINVAL` outside `[1, MAX_RANK]`, `0` for an
uninitialized arena or a rank above `max_rank`, else the length of the free
list at that rank. -/
def query_page_counts (rank : Int) (s : BuddyState) : Except BuddyErr Nat :=
  if rank < 1 ∨ rank > (MAX_RANK : Int) then .error .EINVAL
  else if s.memory_base = 0 then .ok 0
  else
    let rk : Nat := rank.toNat
    if rk > s.max_rank then .ok 0
    else .ok (countLoop (getList s.free_lists rk) 0)

/-- Total number of bytes covered by the blocks on the free lists. -/
def freeBytes (s : BuddyState) : Nat :=
  ((List.range (MAX_RANK + 1)).map
    (fun r => (getList s.free_lists r).length * rank_to_size r)).sum

/-- Tests whether `p` lies inside the byte range `[a, a + rank_to_size r)` of
some block `a` on some free list (the block's actual extent, not the
header-shifted window that `query_ranks` scans). -/
def inFreeBlockBytes (s : BuddyState) (p : Nat) : Bool :=
  (List.range (MAX_RANK + 1)).any
    (fun r => (getList s.free_lists r).any
      (fun a => decide (a ≤ p) && decide (p < a + rank_to_size r)))

/-- Tests whether the result is an error. -/
def isErr {α : Type} : Except BuddyErr α → Bool
  | .error _ => true
  | .ok _ => false

/-- Alignment of a free-list table: every block on the free list of a rank
`r ≥ 1` lies at or above `base` and its offset from `base` is a multiple of
`rank_to_size r`. -/
def flAligned (base : Nat) (fl : List (List Nat)) : Prop :=
  ∀ r a, 1 ≤ r → a ∈ getList fl r → base ≤ a ∧ (a - base) % rank_to_size r = 0

/-- The alignment invariant of a buddy state, relative to its own base. -/
def alignedInv (s : BuddyState) : Prop :=
  flAligned s.memory_base s.free_lists

/-! Helper lemmas about the list-table primitives and the loops. -/

/-- Spelling out the counting loop of `query_page_counts`: it computes the
length of the list plus its accumulator. -/
theorem countLoop_eq_length : ∀ (l : List Nat) (c : Nat), countLoop l c = l.length + c := by
  intro l
  induction l with
  | nil => intro c; simp [countLoop]
  | cons x xs ih => intro c; simp [countLoop, ih]; omega

/-- Membership in a table after `setList` comes either from the new list at
the written rank or from the old table. -/
theorem mem_getList_setList :
    ∀ (fl : List (List Nat)) (i j : Nat) (l : List Nat) (a : Nat),
      a ∈ getList (setList fl i l) j → (i = j ∧ a ∈ l) ∨ a ∈ getList fl j := by
  intro fl
  induction fl with
  | nil =>
    intro i j l a h
    simp [setList, getList] at h
  | cons x xs ih =>
    intro i j l a h
    cases i with
    | zero =>
      cases j with
      | zero => exact Or.inl ⟨rfl, h⟩
      | succ j => exact Or.inr h
    | succ i =>
      cases j with
      | zero => exact Or.inr h
      | succ j =>
        rcases ih i j l a h with ⟨hij, hl⟩ | hr
        · exact Or.inl ⟨by rw [hij], hl⟩
        · exact Or.inr hr

/-- Every row of the all-empty table is empty. -/
theorem getList_replicate :
    ∀ (n j : Nat), getList (List.replicate n ([] : List Nat)) j = [] := by
  intro n
  induction n with
  | zero => intro j; rfl
  | succ n ih =>
    intro j
    cases j with
    | zero => rfl
    | succ j => exact ih j

/-- Halving a block keeps divisibility: the size of rank `r - 1` divides the
size of rank `r`. -/
theorem rank_to_size_pred_dvd (r : Nat) : rank_to_size (r - 1) ∣ rank_to_size r := by
  unfold rank_to_size
  exact Nat.mul_dvd_mul_left _ (Nat.pow_dvd_pow 2 (by omega))

/-- Replacing a row by a subset of itself preserves `flAligned`. -/
theorem flAligned_set_tail {base : Nat} {fl : List (List Nat)} (h : flAligned base fl)
    (i : Nat) {l : List Nat} (hl : ∀ a ∈ l, a ∈ getList fl i) :
    flAligned base (setList fl i l) := by
  intro r a hr ha
  rcases mem_getList_setList fl i r l a ha with ⟨heq, hmem⟩ | hmem
  · subst heq
    exact h i a hr (hl a hmem)
  · exact h r a hr hmem

/-- Pushing one suitably aligned block onto a row preserves `flAligned`. -/
theorem flAligned_push {base : Nat} {fl : List (List Nat)} (h : flAligned base fl)
    (i : Nat) (x : Nat)
    (hx : 1 ≤ i → base ≤ x ∧ (x - base) % rank_to_size i = 0) :
    flAligned base (setList fl i (x :: getList fl i)) := by
  intro r a hr ha
  rcases mem_getList_setList fl i r _ a ha with ⟨heq, hmem⟩ | hmem
  · subst heq
    rcases List.mem_cons.mp hmem with rfl | hmem'
    · exact hx hr
    · exact h i a hr hmem'
  · exact h r a hr hmem

/-- The splitting loop of `alloc_pages` preserves the alignment invariant:
both halves of an aligned block are aligned for the next lower rank. -/
theorem splitLoop_flAligned (base rank : Nat) :
    ∀ (fuel cr : Nat) (fl : List (List Nat)), flAligned base fl →
      flAligned base (splitLoop rank cr fl fuel) := by
  intro fuel
  induction fuel with
  | zero => intro cr fl h; exact h
  | succ n ih =>
    intro cr fl h
    cases hm : getList fl cr with
    | nil =>
      show flAligned base (splitLoop rank cr fl (n + 1))
      unfold splitLoop
      rw [hm]
      exact h
    | cons block rest =>
      show flAligned base (splitLoop rank cr fl (n + 1))
      unfold splitLoop
      rw [hm]
      have h1 : flAligned base (setList fl cr rest) :=
        flAligned_set_tail h cr fun a ha => by
          rw [hm]; exact List.mem_cons_of_mem _ ha
      have hbnr : 1 ≤ cr - 1 → base ≤ block ∧
          (block - base) % rank_to_size (cr - 1) = 0 := by
        intro hnr
        have hcr : 1 ≤ cr := by omega
        have hbl := h cr block hcr (by rw [hm]; exact List.mem_cons_self _ _)
        refine ⟨hbl.1, ?_⟩
        exact Nat.mod_eq_zero_of_dvd
          (dvd_trans (rank_to_size_pred_dvd cr) (Nat.dvd_of_mod_eq_zero hbl.2))
      have h2 : flAligned base
          (setList (setList fl cr rest) (cr - 1)
            (block :: getList (setList fl cr rest) (cr - 1))) :=
        flAligned_push h1 (cr - 1) block hbnr
      have h3 : flAligned base
          (setList (setList (setList fl cr rest) (cr - 1)
              (block :: getList (setList fl cr rest) (cr - 1))) (cr - 1)
            ((block + rank_to_size (cr - 1)) ::
              getList (setList (setList fl cr rest) (cr - 1)
                (block :: getList (setList fl cr rest) (cr - 1))) (cr - 1))) := by
        refine flAligned_push h2 (cr - 1) _ ?_
        intro hnr
        have hb := hbnr hnr
        have hsub : block + rank_to_size (cr - 1) - base =
            (block - base) + rank_to_size (cr - 1) := by
          have := hb.1
          omega
        refine ⟨by omega, ?_⟩
        rw [hsub, Nat.add_mod_right, hb.2]
      exact ih (cr - 1) _ h3

/-- A pointer that passes `is_valid_address` implies an initialized arena. -/
theorem memory_base_ne_zero_of_valid {s : BuddyState} {p : Nat}
    (h : is_valid_address s p = true) : s.memory_base ≠ 0 := by
  intro hb
  unfold is_valid_address at h
  rw [if_pos hb] at h
  cases h

/-- The inner scan of `query_ranks` misses when no block of the row has `p`
in its data-area window. -/
theorem coverHit_eq_false {p rank : Nat} :
    ∀ {l : List Nat},
      (∀ a ∈ l, ¬ (a + HEADER_SIZE ≤ p ∧ p < a + HEADER_SIZE + rank_to_size rank)) →
      coverHit p rank l = false := by
  intro l
  induction l with
  | nil => intro _; rfl
  | cons x xs ih =>
    intro h
    unfold coverHit
    rw [if_neg (h x (List.mem_cons_self x xs))]
    exact ih fun a ha => h a (List.mem_cons_of_mem x ha)

/-- The outer scan of `query_ranks` falls through to `1` when every rank in
its fuel window misses. -/
theorem queryRanksLoop_eq_one {p : Nat} {fl : List (List Nat)} :
    ∀ (fuel rank : Nat),
      (∀ k, rank ≤ k → k < rank + fuel → coverHit p k (getList fl k) = false) →
      queryRanksLoop p fl rank fuel = 1 := by
  intro fuel
  induction fuel with
  | zero => intro rank _; rfl
  | succ n ih =>
    intro rank h
    unfold queryRanksLoop
    rw [h rank (Nat.le_refl rank) (by omega)]
    simp only [Bool.false_eq_true, if_false]
    exact ih (rank + 1) fun k hk1 hk2 => h k (by omega) (by omega)

/-! Claim theorems. -/

/-- C1: the alloc/free round trip does not restore the free counts, because
`return_pages` hard-codes rank 1 instead of reading the block's tag.  From
`init(4096, 16)` (counts: rank 5 ↦ 1, all others 0), `alloc(2)` returns
pointer 61456; `free(61456)` then returns success, but the freed block is
filed at rank 1, leaving counts rank 1..4 ↦ 1 and rank 5 ↦ 0 instead of the
pre-alloc counts. -/
theorem roundtrip_rank2_not_restored :
    (alloc_pages 2 (init_page 4096 16 initialState).2).1 = .ok 61456 ∧
    (return_pages 61456 (alloc_pages 2 (init_page 4096 16 initialState).2).2).1 = .ok () ∧
    query_page_counts 1 (init_page 4096 16 initialState).2 = .ok 0 ∧
    query_page_counts 5 (init_page 4096 16 initialState).2 = .ok 1 ∧
    query_page_counts 1
      (return_pages 61456 (alloc_pages 2 (init_page 4096 16 initialState).2).2).2 = .ok 1 ∧
    query_page_counts 5
      (return_pages 61456 (alloc_pages 2 (init_page 4096 16 initialState).2).2).2 = .ok 0 :=
  ⟨rfl, rfl, rfl, rfl, rfl, rfl⟩

/-- C2: `init_page(base, 3)` seeds a single free block of rank 2 (8192 bytes)
and no rank-1 block, so the third page (total region 12288 bytes) is
discarded instead of being covered by one block per set bit of the page
count. -/
theorem init_three_pages_discards_remainder :
    (init_page 4096 3 initialState).1 = .ok () ∧
    query_page_counts 2 (init_page 4096 3 initialState).2 = .ok 1 ∧
    query_page_counts 1 (init_page 4096 3 initialState).2 = .ok 0 ∧
    freeBytes (init_page 4096 3 initialState).2 = 8192 ∧
    (init_page 4096 3 initialState).2.total_pages * PAGE_SIZE = 12288 :=
  ⟨rfl, rfl, rfl, rfl, rfl⟩

/-- C3: for `page_count = 2 ^ 15` the size of rank 16 fits exactly in the
arena, yet `init_page` computes `max_rank = 15`: the loop increments
`max_rank` once per fitting size but also stops at the `MAX_RANK` cap, and
the unconditional decrement after the loop then overshoots in the capped
case. -/
theorem init_maxrank_off_by_one :
    (init_page 4096 32768 initialState).1 = .ok () ∧
    (init_page 4096 32768 initialState).2.max_rank = 15 ∧
    rank_to_size 16 ≤ 32768 * PAGE_SIZE :=
  ⟨rfl, rfl, by decide⟩

/-- C4 counterexample: from `init(4096, 16)`, `alloc(1)` returns pointer
65552, whose offset from the base (61456) is not a multiple of
`rank_to_size 1 = 4096` — the C code returns the block address shifted by
`sizeof(struct block_header)`. -/
theorem alloc_result_not_aligned :
    (alloc_pages 1 (init_page 4096 16 initialState).2).1 = .ok 65552 ∧
    ¬ (65552 - (init_page 4096 16 initialState).2.memory_base) % rank_to_size 1 = 0 :=
  ⟨rfl, by decide⟩

/-- C4 (amended): every block placed by `init_page` or by the splitting in
`alloc_pages` is aligned to its rank's size relative to the base, and a
successful `alloc_pages(r)` returns the aligned block start shifted by
`HEADER_SIZE` — so the returned pointer minus `HEADER_SIZE` (not the pointer
itself) has an offset from base that is an exact multiple of
`rank_to_size r`; the successor state keeps the alignment invariant. -/
theorem alloc_alignment_spec :
    (∀ (pb : Nat) (n : Int) (s : BuddyState),
        (init_page pb n s).1 = .ok () → alignedInv (init_page pb n s).2) ∧
    (∀ (r : Int) (s : BuddyState) (p : Nat) (s' : BuddyState),
        alignedInv s → alloc_pages r s = (.ok p, s') →
        s.memory_base + HEADER_SIZE ≤ p ∧
        (p - HEADER_SIZE - s.memory_base) % rank_to_size r.toNat = 0 ∧
        alignedInv s') := by
  constructor
  · intro pb n s h
    by_cases hc : pb = 0 ∨ n ≤ 0
    · unfold init_page at h
      rw [if_pos hc] at h
      cases h
    · unfold init_page
      rw [if_neg hc]
      intro r a hr ha
      rcases mem_getList_setList _ _ _ _ a ha with ⟨_, hmem⟩ | hmem
      · rcases List.mem_singleton.mp hmem with rfl
        exact ⟨Nat.le_refl a, by rw [Nat.sub_self]; exact Nat.zero_mod _⟩
      · rw [getList_replicate] at hmem
        exact absurd hmem (List.not_mem_nil a)
  · intro r s p s' hinv heq
    simp only [alloc_pages] at heq
    split at heq
    · simp at heq
    · split at heq
      · simp at heq
      · split at heq
        · simp at heq
        · split at heq
          · simp at heq
          · split at heq
            · simp at heq
            · rename_i hr1 hbase hmr hcr block rest hm
              have hp := congrArg Prod.fst heq
              have hs := congrArg Prod.snd heq
              simp only at hp hs
              injection hp with hp
              subst hp
              subst hs
              have hrk : 1 ≤ r.toNat := by omega
              have hFL : flAligned s.memory_base
                  (splitLoop r.toNat
                    (findRankLoop s.free_lists r.toNat (s.max_rank + 1 - r.toNat))
                    s.free_lists
                    (findRankLoop s.free_lists r.toNat (s.max_rank + 1 - r.toNat) - r.toNat)) :=
                splitLoop_flAligned s.memory_base r.toNat _ _ s.free_lists hinv
              have hbl := hFL r.toNat block hrk (by rw [hm]; exact List.mem_cons_self _ _)
              refine ⟨by omega, ?_, ?_⟩
              · have hcancel : block + HEADER_SIZE - HEADER_SIZE - s.memory_base =
                    block - s.memory_base := by
                  omega
                rw [hcancel]
                exact hbl.2
              · show flAligned s.memory_base _
                exact flAligned_set_tail hFL r.toNat fun a ha => by
                  rw [hm]; exact List.mem_cons_of_mem _ ha

/-- C4 witness: instantiating the amended theorem on the `init(4096, 16)`
arena and `alloc(1)`, whose result is pointer 65552. -/
theorem alloc_alignment_spec_w :
    (init_page 4096 16 initialState).2.memory_base + HEADER_SIZE ≤ 65552 ∧
    (65552 - HEADER_SIZE - (init_page 4096 16 initialState).2.memory_base) %
      rank_to_size (Int.toNat 1) = 0 := by
  have h := alloc_alignment_spec.2 1 (init_page 4096 16 initialState).2 65552
    (alloc_pages 1 (init_page 4096 16 initialState).2).2
    (alloc_alignment_spec.1 4096 16 initialState rfl) rfl
  exact ⟨h.1, h.2.1⟩

/-- Free counts at ranks `1 .. 16` of an initialized arena, written through
the guard-free part of `query_page_counts`. -/
theorem query_page_counts_pos (r : Int) (s : BuddyState) (hb : s.memory_base ≠ 0)
    (h1 : 1 ≤ r) (h16 : r ≤ 16) :
    query_page_counts r s =
      if r.toNat > s.max_rank then .ok 0
      else .ok (countLoop (getList s.free_lists r.toNat) 0) := by
  unfold query_page_counts
  rw [if_neg (by simp only [MAX_RANK]; omega), if_neg hb]

set_option maxHeartbeats 2000000 in
/-- C5: Scenario A and B.  For any non-null base, `init(base, 16)` yields
`max_rank = 5` with one free block at rank 5 and none elsewhere; a single
`alloc(1)` then cascades splits so that ranks 1, 2, 3 and 4 hold one free
block each and rank 5 none. -/
theorem scenario_init16_alloc1 (b : Nat) (hb : b ≠ 0) :
    (init_page b 16 initialState).2.max_rank = 5 ∧
    query_page_counts 5 (init_page b 16 initialState).2 = .ok 1 ∧
    (∀ r : Int, 1 ≤ r → r ≤ 16 → r ≠ 5 →
      query_page_counts r (init_page b 16 initialState).2 = .ok 0) ∧
    query_page_counts 4 (alloc_pages 1 (init_page b 16 initialState).2).2 = .ok 1 ∧
    query_page_counts 3 (alloc_pages 1 (init_page b 16 initialState).2).2 = .ok 1 ∧
    query_page_counts 2 (alloc_pages 1 (init_page b 16 initialState).2).2 = .ok 1 ∧
    query_page_counts 1 (alloc_pages 1 (init_page b 16 initialState).2).2 = .ok 1 ∧
    query_page_counts 5 (alloc_pages 1 (init_page b 16 initialState).2).2 = .ok 0 := by
  have hne : ¬ (b = 0 ∨ (16 : Int) ≤ 0) := by
    rintro (h | h)
    · exact hb h
    · exact absurd h (by decide)
  have h1 : init_page b 16 initialState =
      (.ok (), { memory_base := b
                 total_pages := 16
                 max_rank := 5
                 free_lists := [[], [], [], [], [], [b], [], [], [], [], [], [], [], [], [], [], []] }) := by
    unfold init_page
    rw [if_neg hne]
    rfl
  have h2 : alloc_pages 1 ({ memory_base := b
                             total_pages := 16
                             max_rank := 5
                             free_lists := [[], [], [], [], [], [b], [], [], [], [], [], [], [], [], [], [], []] } : BuddyState) =
      (.ok (b + 32768 + 16384 + 8192 + 4096 + 16),
       { memory_base := b
         total_pages := 16
         max_rank := 5
         free_lists := [[], [b + 32768 + 16384 + 8192], [b + 32768 + 16384], [b + 32768], [b], [], [], [], [], [], [], [], [], [], [], [], []] }) := by
    unfold alloc_pages
    rw [if_neg (by decide), if_neg hb]
    rfl
  rw [h1, h2]
  refine ⟨rfl, ?_, ?_, ?_, ?_, ?_, ?_, ?_⟩
  · rw [query_page_counts_pos 5 _ hb (by decide) (by decide)]
    rfl
  · intro r hr1 hr16 hr5
    rw [query_page_counts_pos r _ hb hr1 hr16]
    interval_cases r
    · rfl
    · rfl
    · rfl
    · rfl
    · exact absurd rfl hr5
    · rfl
    · rfl
    · rfl
    · rfl
    · rfl
    · rfl
    · rfl
    · rfl
    · rfl
    · rfl
    · rfl
  all_goals rw [query_page_counts_pos _ _ hb (by decide) (by decide)]
  all_goals rfl

/-- C5 witness: the scenario instantiated at base 4096. -/
theorem scenario_init16_alloc1_w :
    (init_page 4096 16 initialState).2.max_rank = 5 :=
  (scenario_init16_alloc1 4096 (by decide)).1

/-- C6: `return_pages` accepts an in-arena pointer that is not a block
boundary.  After `init(4096, 16)` the only live block starts at 4096 (the
whole free-list table is spelled out below); yet `free(8208)` — whose header
address 8192 is the interior of that block — returns success and pushes 8192
onto the rank-1 free list instead of failing with an invalid-address
error. -/
theorem free_accepts_nonboundary :
    (init_page 4096 16 initialState).2.free_lists =
      [[], [], [], [], [], [4096], [], [], [], [], [], [], [], [], [], [], []] ∧
    (return_pages 8208 (init_page 4096 16 initialState).2).1 = .ok () ∧
    getList (return_pages 8208 (init_page 4096 16 initialState).2).2.free_lists 1 = [8192] :=
  ⟨rfl, rfl, rfl⟩

/-- C7: `alloc_pages 0` and `alloc_pages 17` fail with `EINVAL` in every
arena state, and on an initialized arena a rank within `[1, MAX_RANK]` but
above the arena's `max_rank` fails with `ENOSPC`. -/
theorem alloc_boundary_spec :
    ∀ s : BuddyState,
      (alloc_pages 0 s).1 = .error .EINVAL ∧
      (alloc_pages 17 s).1 = .error .EINVAL ∧
      (∀ r : Int, 1 ≤ r → r ≤ 16 → s.memory_base ≠ 0 → s.max_rank < r.toNat →
        (alloc_pages r s).1 = .error .ENOSPC) := by
  intro s
  refine ⟨rfl, rfl, ?_⟩
  intro r h1 h16 hb hmr
  simp only [alloc_pages]
  rw [if_neg (by simp only [MAX_RANK]; omega), if_neg hb, if_pos hmr]

/-- C7 witness: on the `init(4096, 16)` arena (`max_rank = 5`), `alloc(6)`
fails with `ENOSPC`. -/
theorem alloc_boundary_spec_w :
    (alloc_pages 6 (init_page 4096 16 initialState).2).1 = .error .ENOSPC :=
  (alloc_boundary_spec (init_page 4096 16 initialState).2).2.2 6 (by decide) (by decide)
    (by decide) (by decide)

/-- C8: every error return of the mutating operations leaves the state —
in particular the free-list table — exactly as it was: validation precedes
mutation in `init_page`, `alloc_pages` and `return_pages` (the query
operations are read-only by their type: they return no successor state). -/
theorem failed_ops_preserve_state :
    (∀ (p : Nat) (n : Int) (s : BuddyState),
      isErr (init_page p n s).1 = true → (init_page p n s).2 = s) ∧
    (∀ (r : Int) (s : BuddyState),
      isErr (alloc_pages r s).1 = true → (alloc_pages r s).2 = s) ∧
    (∀ (p : Nat) (s : BuddyState),
      isErr (return_pages p s).1 = true → (return_pages p s).2 = s) := by
  refine ⟨?_, ?_, ?_⟩
  · intro p n s
    unfold init_page
    split
    · intro _; rfl
    · intro h; simp [isErr] at h
  · intro r s
    simp only [alloc_pages]
    split
    · intro _; rfl
    · split
      · intro _; rfl
      · split
        · intro _; rfl
        · split
          · intro _; rfl
          · split
            · intro _; rfl
            · intro h; simp [isErr] at h
  · intro p s
    simp only [return_pages]
    split
    · intro _; rfl
    · split
      · intro _; rfl
      · split
        · intro _; rfl
        · intro h; simp [isErr] at h

/-- C8 witness: the failing `alloc_pages 0` call leaves the zero state
untouched. -/
theorem failed_ops_preserve_state_w :
    (alloc_pages 0 initialState).2 = initialState :=
  failed_ops_preserve_state.2.1 0 initialState rfl

/-- C9: `query_page_counts` returns `EINVAL` outside `[1, MAX_RANK]`, `0` on
an uninitialized arena, `0` when the rank exceeds the arena's `max_rank`,
and otherwise exactly the length of that rank's free list. -/
theorem query_free_count_spec :
    ∀ (r : Int) (s : BuddyState),
      ((r < 1 ∨ 16 < r) → query_page_counts r s = .error .EINVAL) ∧
      (1 ≤ r → r ≤ 16 → s.memory_base = 0 → query_page_counts r s = .ok 0) ∧
      (1 ≤ r → r ≤ 16 → s.memory_base ≠ 0 → s.max_rank < r.toNat →
        query_page_counts r s = .ok 0) ∧
      (1 ≤ r → r ≤ 16 → s.memory_base ≠ 0 → r.toNat ≤ s.max_rank →
        query_page_counts r s = .ok (getList s.free_lists r.toNat).length) := by
  intro r s
  refine ⟨?_, ?_, ?_, ?_⟩
  · intro h
    unfold query_page_counts
    rw [if_pos (by simp only [MAX_RANK]; omega)]
  · intro h1 h16 hb
    unfold query_page_counts
    rw [if_neg (by simp only [MAX_RANK]; omega), if_pos hb]
  · intro h1 h16 hb hmr
    unfold query_page_counts
    rw [if_neg (by simp only [MAX_RANK]; omega), if_neg hb, if_pos hmr]
  · intro h1 h16 hb hmr
    unfold query_page_counts
    rw [if_neg (by simp only [MAX_RANK]; omega), if_neg hb, if_neg (by omega),
      countLoop_eq_length, Nat.add_zero]

/-- C9 witness: rank 17 is rejected with `EINVAL` even on the zero state. -/
theorem query_free_count_spec_w :
    query_page_counts 17 initialState = .error .EINVAL :=
  (query_free_count_spec 17 initialState).1 (Or.inr (by decide))

/-- C10 counterexample: after `init(4096, 16)` and `alloc(3)` the pointer
53256 is in-arena and covered by no free block's byte range (it lies inside
the allocated rank-3 block), yet `query_ranks` returns 3, not 1: the scan
window of the rank-3 free block at 36864 is shifted past the block's end by
`HEADER_SIZE` and captures the neighbouring allocated bytes. -/
theorem query_rank_hits_shifted_window :
    is_valid_address (alloc_pages 3 (init_page 4096 16 initialState).2).2 53256 = true ∧
    inFreeBlockBytes (alloc_pages 3 (init_page 4096 16 initialState).2).2 53256 = false ∧
    query_ranks 53256 (alloc_pages 3 (init_page 4096 16 initialState).2).2 = .ok 3 :=
  ⟨rfl, rfl, rfl⟩

/-- C10 (amended): `query_ranks` never returns `EINVAL` for a non-null
in-arena pointer, and it returns 1 for every in-arena pointer that no free
block's header-shifted data window `[a + HEADER_SIZE, a + HEADER_SIZE +
rank_to_size r)` contains — the windows the C scan actually checks, rather
than the blocks' own byte ranges. -/
theorem query_rank_uncovered_spec :
    ∀ (s : BuddyState) (p : Nat), p ≠ 0 → is_valid_address s p = true →
      query_ranks p s ≠ .error .EINVAL ∧
      ((∀ r a, 1 ≤ r → r ≤ s.max_rank → a ∈ getList s.free_lists r →
          ¬ (a + HEADER_SIZE ≤ p ∧ p < a + HEADER_SIZE + rank_to_size r)) →
        query_ranks p s = .ok 1) := by
  intro s p hp hv
  have hbase := memory_base_ne_zero_of_valid hv
  have hcond : ¬ (p = 0 ∨ is_valid_address s p = false) := by
    rintro (h | h)
    · exact hp h
    · rw [hv] at h; cases h
  have hq : query_ranks p s = .ok (queryRanksLoop p s.free_lists 1 s.max_rank) := by
    unfold query_ranks
    rw [if_neg hcond, if_neg hbase]
  refine ⟨(by rw [hq]; intro h; cases h), ?_⟩
  intro hwin
  rw [hq, queryRanksLoop_eq_one s.max_rank 1]
  intro k hk1 hk2
  exact coverHit_eq_false fun a ha => hwin k a hk1 (by omega) ha

/-- C10 witness: on the fresh `init(4096, 16)` arena the pointer 4100 (in
the sole free block's header area, hence outside every scan window)
queries as rank 1. -/
theorem query_rank_uncovered_spec_w :
    query_ranks 4100 (init_page 4096 16 initialState).2 = .ok 1 := by
  refine (query_rank_uncovered_spec (init_page 4096 16 initialState).2 4100
    (by decide) (by rfl)).2 ?_
  intro r a h1 h5 ha
  have h5' : r ≤ 5 := h5
  interval_cases r
  · exact absurd ha (List.not_mem_nil a)
  · exact absurd ha (List.not_mem_nil a)
  · exact absurd ha (List.not_mem_nil a)
  · exact absurd ha (List.not_mem_nil a)
  · have ha' : a ∈ ([4096] : List Nat) := ha
    have haeq : a = 4096 := List.mem_singleton.mp ha'
    subst haeq
    exact fun hc => absurd hc.1 (by decide)
